import Mathlib

/-!
# Record Workflow Engine — verification development

This file embeds the record-lifecycle workflow of the Records Management
System demo and proves the specified properties about it.

Two layers are embedded:

* The **Record Workflow Engine** (status state machine, transition guards,
  audit trail).  The repository ships only the engine's UI callers
  (`src/demo-frontend/app.js`: `submitForReview`, `approveRecord`,
  `rejectRecord`, `lockRecord`, `unlockRecord`, `archiveRecord` are direct
  DOM callbacks with no guard logic) together with documentation of the
  intended guards; the pure engine itself is not present as code.  The
  engine definitions below are therefore modelled from the spec (§3–§4.4,
  §7), as marked on each definition.

* Two concrete functions of `src/demo-frontend/app.js` translated
  directly from the source: `validateRecordForm` (record-creation
  validation) and `updateStatusBadge` (status badge class handling).
-/

deriving instance DecidableEq for Except

namespace RecordWorkflow

/-- Modelled from the spec (§3 Data Model): the six record statuses.
`status` can hold no other value — the type has exactly these six
constructors. -/
inductive Status where
  | Draft
  | PendingReview
  | Approved
  | Rejected
  | Locked
  | Archived
deriving DecidableEq, Repr

/-- Modelled from the spec (§3 Data Model): the four actor roles. -/
inductive Role where
  | Viewer
  | Editor
  | Reviewer
  | Admin
deriving DecidableEq, Repr

/-- Modelled from the spec (§4.1): the six named transitions. -/
inductive TransitionName where
  | SubmitForReview
  | Approve
  | Reject
  | Lock
  | Unlock
  | Archive
deriving DecidableEq, Repr

/-- Modelled from the spec (§7 Error taxonomy): typed guard-failure
reasons returned by the engine.  `StorageUnavailable` is listed for
completeness; the engine's own logic never produces it. -/
inductive WorkflowError where
  | NotFound
  | InvalidTransition
  | Forbidden
  | MissingRequiredInput
  | StorageUnavailable
deriving DecidableEq, Repr

/-- Modelled from the spec (§4.1 table, "From" column): the statuses from
which each transition may fire. -/
def fromStatuses : TransitionName → List Status
  | .SubmitForReview => [.Draft]
  | .Approve => [.PendingReview]
  | .Reject => [.PendingReview]
  | .Lock => [.Approved]
  | .Unlock => [.Locked]
  | .Archive => [.Approved, .Rejected, .Locked]

/-- Modelled from the spec (§4.1 table, "To" column): the target status of
each transition. -/
def toStatus : TransitionName → Status
  | .SubmitForReview => .PendingReview
  | .Approve => .Approved
  | .Reject => .Rejected
  | .Lock => .Locked
  | .Unlock => .Approved
  | .Archive => .Archived

/-- Modelled from the spec (§4.1 table, "Required role" column / §4.2
role-permission mapping): the roles allowed to invoke each transition. -/
def allowedRoles : TransitionName → List Role
  | .SubmitForReview => [.Editor, .Admin]
  | .Approve => [.Reviewer, .Admin]
  | .Reject => [.Reviewer, .Admin]
  | .Lock => [.Admin]
  | .Unlock => [.Admin]
  | .Archive => [.Editor, .Admin]

/-- Modelled from the spec (§4.1 table, "Required input" column): whether
the transition requires a non-empty auxiliary input (`Reject` requires a
reason, `Unlock` a justification; all other inputs are optional). -/
def requiresInput : TransitionName → Bool
  | .Reject => true
  | .Unlock => true
  | _ => false

/-- A string is blank when it is empty or consists only of whitespace —
equivalently, when trimming the whitespace off both ends leaves the empty
string (the JS idiom `!value.trim()`). -/
def blankString (s : String) : Bool :=
  s.data.all Char.isWhitespace

/-- Modelled from the spec (§4.1 guard 4): an auxiliary input is missing
when none was supplied or the supplied text is empty or whitespace-only. -/
def blankInput : Option String → Bool
  | none => true
  | some s => blankString s

/-- Modelled from the spec (§3 Data Model): a managed record.  The
metadata fields are opaque to the engine during transitions, so only the
identifier and the status are carried. -/
structure Record where
  id : Nat
  status : Status
deriving DecidableEq, Repr

/-- Modelled from the spec (§3 Data Model): the actor requesting a
transition; the engine only consumes the role. -/
structure Actor where
  role : Role
deriving DecidableEq, Repr

/-- Modelled from the spec (§3 Data Model): input to the engine. -/
structure TransitionRequest where
  recordId : Nat
  actor : Actor
  targetTransition : TransitionName
  auxiliaryInput : Option String
deriving DecidableEq, Repr

/-- Modelled from the spec (§3 Data Model): immutable record of an applied
transition.  The spec's timestamp field is omitted: §4.3 makes insertion
order authoritative, and the audit log below is an insertion-ordered
list. -/
structure AuditEntry where
  recordId : Nat
  fromStatus : Status
  toStatus : Status
  actorRole : Role
  auxiliaryInput : Option String
  transitionName : TransitionName
deriving DecidableEq, Repr

/-- Modelled from the spec (§6 External interfaces): the state the engine
is handed — a record store and an append-only audit log, ordered by
insertion. -/
structure EngineState where
  records : List Record
  audit : List AuditEntry
deriving DecidableEq, Repr

/-- Modelled from the spec (§6): the record store's `get(id)`. -/
def findRecord (st : EngineState) (id : Nat) : Option Record :=
  st.records.find? (fun r => r.id == id)

/-- Modelled from the spec (§6): the record store's `put(record)` —
replaces the stored record carrying the written record's id. -/
def putRecord (records : List Record) (r' : Record) : List Record :=
  records.map (fun r => if r.id == r'.id then r' else r)

/-- Modelled from the spec (§4.1 guard evaluation order, §4.4
`applyTransition`): evaluates the fixed guard chain — record exists, else
`NotFound`; current status in the "From" set, else `InvalidTransition`;
actor role allowed, else `Forbidden`; required auxiliary input present and
non-blank, else `MissingRequiredInput` — and on success returns the
updated record plus the new audit entry. -/
def applyTransition (st : EngineState) (req : TransitionRequest) :
    Except WorkflowError (Record × AuditEntry) :=
  match findRecord st req.recordId with
  | none => .error .NotFound
  | some r =>
    if r.status ∈ fromStatuses req.targetTransition then
      if req.actor.role ∈ allowedRoles req.targetTransition then
        if requiresInput req.targetTransition && blankInput req.auxiliaryInput then
          .error .MissingRequiredInput
        else
          let r' : Record := { r with status := toStatus req.targetTransition }
          .ok (r', { recordId := r.id
                     fromStatus := r.status
                     toStatus := toStatus req.targetTransition
                     actorRole := req.actor.role
                     auxiliaryInput := req.auxiliaryInput
                     transitionName := req.targetTransition })
      else .error .Forbidden
    else .error .InvalidTransition

/-- Modelled from the spec (§4.1 guard 5): a passing transition is applied
atomically — the record is put back with the new status and the audit
entry is appended; a guard failure leaves both stores untouched. -/
def step (st : EngineState) (req : TransitionRequest) : EngineState :=
  match applyTransition st req with
  | .error _ => st
  | .ok (r', e) => { records := putRecord st.records r', audit := st.audit ++ [e] }

/-- Modelled from the spec (§5): transition requests are processed one at
a time, in order. -/
def run (st : EngineState) (reqs : List TransitionRequest) : EngineState :=
  reqs.foldl step st

/-- Modelled from the spec (§4.1): the fixed list of defined
transitions. -/
def allTransitions : List TransitionName :=
  [.SubmitForReview, .Approve, .Reject, .Lock, .Unlock, .Archive]

/-- Modelled from the spec (§4.4): `availableTransitions(record, actor)`
— the transitions whose "From" set matches the record's status and whose
role set admits the actor; a pure computation with no side effects. -/
def availableTransitions (r : Record) (a : Actor) : List TransitionName :=
  allTransitions.filter
    (fun t => decide (r.status ∈ fromStatuses t) && decide (a.role ∈ allowedRoles t))

/-- Modelled from the spec (§4.1, §8): the statuses reachable from `Draft`
by composing the transitions of the §4.1 table. -/
inductive ReachableFromDraft : Status → Prop
  | init : ReachableFromDraft .Draft
  | next (t : TransitionName) (s : Status) :
      ReachableFromDraft s → s ∈ fromStatuses t → ReachableFromDraft (toStatus t)

end RecordWorkflow

namespace DemoFrontend

open RecordWorkflow (blankString)

/-- The new-record form as `validateRecordForm` can observe it
(cf. the record form fields of `record-form.html`): the title input's
value (`none` models the `input-record-title` element being absent from
the page, the case `!title` guards), the Type select's value and the
description.  `validateRecordForm` in `src/demo-frontend/app.js` queries
only the title element. -/
structure RecordForm where
  title : Option String
  rtype : Option String
  description : Option String
deriving DecidableEq, Repr

/-- The observable outcome of `validateRecordForm`: whether the per-field
title error (`field-error-title`) is visible, whether the form-level
summary (`form-error-summary`) is visible, and whether the success path
(success toast plus redirect to `record-detail.html`) was taken. -/
structure FormOutcome where
  titleErrorVisible : Bool
  summaryVisible : Bool
  success : Bool
deriving DecidableEq, Repr

/-- Translated from `validateRecordForm` in `src/demo-frontend/app.js`:
the title is rejected when the element is absent or its value trims to
the empty string (`!title || !title.value.trim()`). -/
def titleBlank (form : RecordForm) : Bool :=
  match form.title with
  | none => true
  | some v => blankString v

/-- Translated from `validateRecordForm` in `src/demo-frontend/app.js`
(lines 159–187): all field errors and the error summary are reset; if the
title is absent or blank the title field error and the error summary are
made visible and submission stops; otherwise the success toast is shown
and the page redirects. -/
def validateRecordForm (form : RecordForm) : FormOutcome :=
  if titleBlank form then
    { titleErrorVisible := true, summaryVisible := true, success := false }
  else
    { titleErrorVisible := false, summaryVisible := false, success := true }

/-- The status badge element as `updateStatusBadge` observes it: its CSS
class list and its text content. -/
structure Badge where
  classes : List String
  text : String
deriving DecidableEq, Repr

/-- `DOMTokenList.add`: appends the class unless it is already present. -/
def classListAdd (classes : List String) (c : String) : List String :=
  if classes.contains c then classes else classes ++ [c]

/-- Translated from `updateStatusBadge` in `src/demo-frontend/app.js`
(lines 267–273), for an existing badge element (the function returns with
no effect when `status-badge` is absent): `badge.className = 'badge'`
replaces the entire class list with the single class `badge`;
`badge.classList.add(className)` then adds the supplied class;
`badge.textContent = text` sets the text. -/
def updateStatusBadge (b : Badge) (text className : String) : Badge :=
  let afterReset : Badge := { b with classes := ["badge"] }
  let afterAdd : Badge := { afterReset with classes := classListAdd afterReset.classes className }
  { afterAdd with text := text }

end DemoFrontend

namespace RecordWorkflow

/-- A record returned by the store's `get` carries the requested id. -/
theorem findRecord_id {st : EngineState} {id : Nat} {r : Record}
    (h : findRecord st id = some r) : r.id = id := by
  have hp := List.find?_some h
  simpa using hp

/-- A record returned by the store's `get` is in the store. -/
theorem findRecord_mem {st : EngineState} {id : Nat} {r : Record}
    (h : findRecord st id = some r) : r ∈ st.records :=
  List.mem_of_find?_eq_some h

/-- Writing a record with a different id does not change what `get`
returns for this id. -/
theorem find?_putRecord_ne (records : List Record) (r' : Record) (id : Nat)
    (h : r'.id ≠ id) :
    (putRecord records r').find? (fun x => x.id == id) =
      records.find? (fun x => x.id == id) := by
  induction records with
  | nil => rfl
  | cons a as ih =>
    show ((if (a.id == r'.id) = true then r' else a) :: putRecord as r').find? _ = _
    by_cases ha : a.id = r'.id
    · rw [if_pos (by simp [ha])]
      rw [List.find?_cons_of_neg _ (by simp [h]),
          List.find?_cons_of_neg _ (by simp [ha, h])]
      exact ih
    · rw [if_neg (by simp [ha])]
      by_cases hid : a.id = id
      · rw [List.find?_cons_of_pos _ (by simp [hid]),
            List.find?_cons_of_pos _ (by simp [hid])]
      · rw [List.find?_cons_of_neg _ (by simp [hid]),
            List.find?_cons_of_neg _ (by simp [hid])]
        exact ih

/-- Writing a record with the id that `get` currently resolves makes
`get` return the written record. -/
theorem find?_putRecord_eq (records : List Record) (r' : Record) (id : Nat) (r : Record)
    (hfind : records.find? (fun x => x.id == id) = some r) (hid : r'.id = id) :
    (putRecord records r').find? (fun x => x.id == id) = some r' := by
  induction records with
  | nil => simp [List.find?] at hfind
  | cons a as ih =>
    show ((if (a.id == r'.id) = true then r' else a) :: putRecord as r').find? _ = _
    by_cases hpa : a.id = id
    · rw [if_pos (by simp [hpa, hid])]
      exact List.find?_cons_of_pos _ (by simp [hid])
    · have hfind' : as.find? (fun x => x.id == id) = some r := by
        rwa [List.find?_cons_of_neg _ (by simp [hpa])] at hfind
      have hanr : a.id ≠ r'.id := by rw [hid]; exact hpa
      rw [if_neg (by simp [hanr])]
      rw [List.find?_cons_of_neg _ (by simp [hpa])]
      exact ih hfind'

/-- A failing guard chain leaves the engine state as it was. -/
theorem step_of_error {st : EngineState} {req : TransitionRequest} {e : WorkflowError}
    (h : applyTransition st req = .error e) : step st req = st := by
  simp [step, h]

/-- A passing guard chain writes the updated record and appends the audit
entry. -/
theorem step_of_ok {st : EngineState} {req : TransitionRequest} {r' : Record} {e : AuditEntry}
    (h : applyTransition st req = .ok (r', e)) :
    step st req = { records := putRecord st.records r', audit := st.audit ++ [e] } := by
  simp [step, h]

/-- Inversion for a successful transition: the record was found, its
status was in the "From" set, the role was allowed, and the outputs are
the updated record and the corresponding audit entry. -/
theorem applyTransition_ok {st : EngineState} {req : TransitionRequest}
    {r' : Record} {e : AuditEntry}
    (h : applyTransition st req = .ok (r', e)) :
    ∃ r, findRecord st req.recordId = some r ∧
      r.status ∈ fromStatuses req.targetTransition ∧
      req.actor.role ∈ allowedRoles req.targetTransition ∧
      r' = { r with status := toStatus req.targetTransition } ∧
      e = { recordId := r.id, fromStatus := r.status,
            toStatus := toStatus req.targetTransition,
            actorRole := req.actor.role, auxiliaryInput := req.auxiliaryInput,
            transitionName := req.targetTransition } := by
  unfold applyTransition at h
  cases hf : findRecord st req.recordId with
  | none => rw [hf] at h; cases h
  | some r =>
    rw [hf] at h
    dsimp only at h
    refine ⟨r, rfl, ?_⟩
    by_cases h1 : r.status ∈ fromStatuses req.targetTransition
    · rw [if_pos h1] at h
      by_cases h2 : req.actor.role ∈ allowedRoles req.targetTransition
      · rw [if_pos h2] at h
        by_cases h3 : (requiresInput req.targetTransition &&
            blankInput req.auxiliaryInput) = true
        · rw [if_pos h3] at h; cases h
        · rw [if_neg h3] at h
          simp only [Except.ok.injEq, Prod.mk.injEq] at h
          exact ⟨h1, h2, h.1.symm, h.2.symm⟩
      · rw [if_neg h2] at h; cases h
    · rw [if_neg h1] at h; cases h

/-- No transition of the §4.1 table fires from `Archived`. -/
theorem archived_not_source (t : TransitionName) :
    Status.Archived ∉ fromStatuses t := by
  cases t <;> decide

/-- One engine step keeps every stored status inside the reachable
closure of the §4.1 table. -/
theorem reachable_preserved (st : EngineState) (req : TransitionRequest)
    (h : ∀ r ∈ st.records, ReachableFromDraft r.status) :
    ∀ r ∈ (step st req).records, ReachableFromDraft r.status := by
  cases happ : applyTransition st req with
  | error e => rw [step_of_error happ]; exact h
  | ok pr =>
    obtain ⟨r', en⟩ := pr
    rw [step_of_ok happ]
    intro x hx
    simp only [putRecord, List.mem_map] at hx
    obtain ⟨y, hy, hxy⟩ := hx
    by_cases hc : (y.id == r'.id) = true
    · rw [if_pos hc] at hxy
      subst hxy
      obtain ⟨r0, hf0, hmem0, hrole0, hr', hen⟩ := applyTransition_ok happ
      subst hr'
      exact ReachableFromDraft.next req.targetTransition r0.status
        (h r0 (findRecord_mem hf0)) hmem0
    · rw [if_neg hc] at hxy
      subst hxy
      exact h y hy

/-- Any run of the engine keeps every stored status inside the reachable
closure of the §4.1 table. -/
theorem reachable_run (reqs : List TransitionRequest) (st : EngineState)
    (h : ∀ r ∈ st.records, ReachableFromDraft r.status) :
    ∀ r ∈ (run st reqs).records, ReachableFromDraft r.status := by
  induction reqs generalizing st with
  | nil => exact h
  | cons req rest ih =>
    exact ih (step st req) (reachable_preserved st req h)

/-- One engine step never touches a stored `Archived` record. -/
theorem archived_stays_step (st : EngineState) (id : Nat) (r : Record)
    (req : TransitionRequest)
    (hfind : findRecord st id = some r) (hst : r.status = .Archived) :
    findRecord (step st req) id = some r := by
  cases happ : applyTransition st req with
  | error e => rw [step_of_error happ]; exact hfind
  | ok pr =>
    obtain ⟨r', en⟩ := pr
    obtain ⟨r0, hf0, hmem0, hrole0, hr', hen⟩ := applyTransition_ok happ
    rw [step_of_ok happ]
    by_cases hreq : req.recordId = id
    · rw [hreq, hfind] at hf0
      injection hf0 with hf0
      rw [← hf0, hst] at hmem0
      exact absurd hmem0 (archived_not_source _)
    · have hr'id : r'.id ≠ id := by
        have h0 : r0.id = req.recordId := findRecord_id hf0
        rw [hr']
        show r0.id ≠ id
        rw [h0]; exact hreq
      show (putRecord st.records r').find? (fun x => x.id == id) = some r
      rw [find?_putRecord_ne _ _ _ hr'id]
      exact hfind

/-- Any run of the engine never touches a stored `Archived` record. -/
theorem archived_stays_run (reqs : List TransitionRequest) (st : EngineState)
    (id : Nat) (r : Record)
    (hfind : findRecord st id = some r) (hst : r.status = .Archived) :
    findRecord (run st reqs) id = some r := by
  induction reqs generalizing st with
  | nil => exact hfind
  | cons req rest ih =>
    exact ih (step st req) (archived_stays_step st id r req hfind hst)

end RecordWorkflow

namespace RecordWorkflow

/-- Claim C1: for every record and every sequence of workflow operation
calls starting from status `Draft`, the only reachable statuses are those
reachable by composing the transitions of the §4.1 table.  The companion
part of the claim — that the status is always one of the six values
`Draft`, `PendingReview`, `Approved`, `Rejected`, `Locked`, `Archived`
and no other value is observable — holds because `Status` has exactly
those six constructors. -/
theorem run_status_reachable_from_draft (st : EngineState)
    (reqs : List TransitionRequest)
    (hdraft : ∀ r ∈ st.records, r.status = Status.Draft) :
    ∀ r ∈ (run st reqs).records, ReachableFromDraft r.status := by
  refine reachable_run reqs st ?_
  intro r hr
  rw [hdraft r hr]
  exact ReachableFromDraft.init

/-- Witness for claim C1: after an editor submits a draft record for
review, the stored status `PendingReview` lies in the closure of the
§4.1 table. -/
theorem run_status_reachable_from_draft_witness :
    ReachableFromDraft (Record.mk 0 Status.PendingReview).status :=
  run_status_reachable_from_draft (EngineState.mk [Record.mk 0 .Draft] [])
    [TransitionRequest.mk 0 (Actor.mk .Editor) .SubmitForReview none]
    (by decide) (Record.mk 0 .PendingReview) (by decide)

/-- Claim C2: a transition request on which any guard fails is
all-or-nothing — the record store (hence every record's status) and the
audit log are unchanged. -/
theorem guard_failure_all_or_nothing (st : EngineState) (req : TransitionRequest)
    (e : WorkflowError) (h : applyTransition st req = .error e) :
    (step st req).records = st.records ∧ (step st req).audit = st.audit := by
  rw [step_of_error h]
  exact ⟨rfl, rfl⟩

/-- Witness for claim C2: a `Viewer` approving a `Draft` record fails and
leaves the store and the audit log exactly as they were. -/
theorem guard_failure_all_or_nothing_witness :
    (step (EngineState.mk [Record.mk 0 .Draft] [])
        (TransitionRequest.mk 0 (Actor.mk .Viewer) .Approve none)).records =
      [Record.mk 0 .Draft] ∧
    (step (EngineState.mk [Record.mk 0 .Draft] [])
        (TransitionRequest.mk 0 (Actor.mk .Viewer) .Approve none)).audit = [] :=
  guard_failure_all_or_nothing _ _ .InvalidTransition (by decide)

/-- Claim C3, counterexample: the claim's first half is not true of every
Reject request — the fixed guard order of §4.1 checks the actor's role
before the required input, so a `Reject` with an empty reason from a
`Viewer` on a `PendingReview` record fails with `Forbidden`, not
`MissingRequiredInput`. -/
theorem reject_blank_reason_counterexample :
    applyTransition (EngineState.mk [Record.mk 0 .PendingReview] [])
        (TransitionRequest.mk 0 (Actor.mk .Viewer) .Reject (some "")) =
      .error .Forbidden ∧
    applyTransition (EngineState.mk [Record.mk 0 .PendingReview] [])
        (TransitionRequest.mk 0 (Actor.mk .Viewer) .Reject (some "")) ≠
      .error .MissingRequiredInput := by
  decide

/-- Claim C3 (amended): for a `Reject` request on an existing
`PendingReview` record by an allowed role (`Reviewer` or `Admin`): an
empty or whitespace-only reason fails with `MissingRequiredInput` and
leaves the state unchanged, and a non-blank reason succeeds with status
`Rejected`. -/
theorem reject_guarded_behaviour (st : EngineState) (id : Nat) (r : Record)
    (role : Role) (aux : Option String)
    (hfind : findRecord st id = some r) (hst : r.status = .PendingReview)
    (hrole : role ∈ allowedRoles .Reject) :
    (blankInput aux = true →
      applyTransition st ⟨id, ⟨role⟩, .Reject, aux⟩ = .error .MissingRequiredInput ∧
      step st ⟨id, ⟨role⟩, .Reject, aux⟩ = st) ∧
    (blankInput aux = false →
      applyTransition st ⟨id, ⟨role⟩, .Reject, aux⟩ =
        .ok ({ r with status := .Rejected },
             { recordId := r.id, fromStatus := .PendingReview, toStatus := .Rejected,
               actorRole := role, auxiliaryInput := aux,
               transitionName := .Reject })) := by
  constructor
  · intro hb
    have happ : applyTransition st ⟨id, ⟨role⟩, .Reject, aux⟩ =
        .error .MissingRequiredInput := by
      unfold applyTransition
      dsimp only
      rw [hfind]
      dsimp only
      rw [if_pos (by rw [hst]; decide), if_pos hrole,
          if_pos (by simp [requiresInput, hb])]
    exact ⟨happ, step_of_error happ⟩
  · intro hb
    unfold applyTransition
    dsimp only
    rw [hfind]
    dsimp only
    rw [if_pos (by rw [hst]; decide), if_pos hrole,
        if_neg (by simp [requiresInput, hb])]
    rw [hst]
    rfl

/-- Witness for claim C3 (amended): on a `PendingReview` record, a
`Reviewer` rejecting with a whitespace-only reason gets
`MissingRequiredInput`, and rejecting with a real reason yields status
`Rejected`. -/
theorem reject_guarded_behaviour_witness :
    applyTransition (EngineState.mk [Record.mk 0 .PendingReview] [])
        (TransitionRequest.mk 0 (Actor.mk .Reviewer) .Reject (some "  ")) =
      .error .MissingRequiredInput ∧
    applyTransition (EngineState.mk [Record.mk 0 .PendingReview] [])
        (TransitionRequest.mk 0 (Actor.mk .Reviewer) .Reject (some "incomplete data")) =
      .ok (Record.mk 0 .Rejected,
           AuditEntry.mk 0 .PendingReview .Rejected .Reviewer
             (some "incomplete data") .Reject) :=
  ⟨((reject_guarded_behaviour (EngineState.mk [Record.mk 0 .PendingReview] []) 0
      (Record.mk 0 .PendingReview) .Reviewer (some "  ") rfl rfl (by decide)).1
      (by decide)).1,
   (reject_guarded_behaviour (EngineState.mk [Record.mk 0 .PendingReview] []) 0
      (Record.mk 0 .PendingReview) .Reviewer (some "incomplete data") rfl rfl
      (by decide)).2 (by decide)⟩

/-- Claim C4: a `Viewer` approving a `PendingReview` record fails with
`Forbidden` and the engine state is unchanged — the status remains
`PendingReview` and no audit entry is appended. -/
theorem viewer_approve_forbidden (st : EngineState) (id : Nat) (r : Record)
    (aux : Option String)
    (hfind : findRecord st id = some r) (hst : r.status = .PendingReview) :
    applyTransition st ⟨id, ⟨.Viewer⟩, .Approve, aux⟩ = .error .Forbidden ∧
    step st ⟨id, ⟨.Viewer⟩, .Approve, aux⟩ = st := by
  have happ : applyTransition st ⟨id, ⟨.Viewer⟩, .Approve, aux⟩ = .error .Forbidden := by
    unfold applyTransition
    dsimp only
    rw [hfind]
    dsimp only
    rw [if_pos (by rw [hst]; decide), if_neg (by decide)]
  exact ⟨happ, step_of_error happ⟩

/-- Witness for claim C4. -/
theorem viewer_approve_forbidden_witness :
    applyTransition (EngineState.mk [Record.mk 5 .PendingReview] [])
        (TransitionRequest.mk 5 (Actor.mk .Viewer) .Approve none) = .error .Forbidden ∧
    step (EngineState.mk [Record.mk 5 .PendingReview] [])
        (TransitionRequest.mk 5 (Actor.mk .Viewer) .Approve none) =
      EngineState.mk [Record.mk 5 .PendingReview] [] :=
  viewer_approve_forbidden _ 5 _ none rfl rfl

/-- Claim C5, counterexample: the failure is not `MissingRequiredInput`
for every role — the fixed guard order of §4.1 checks the actor's role
before the required input, so a `Viewer` unlocking a `Locked` record with
no justification fails with `Forbidden`. -/
theorem unlock_blank_counterexample :
    applyTransition (EngineState.mk [Record.mk 0 .Locked] [])
        (TransitionRequest.mk 0 (Actor.mk .Viewer) .Unlock none) = .error .Forbidden ∧
    applyTransition (EngineState.mk [Record.mk 0 .Locked] [])
        (TransitionRequest.mk 0 (Actor.mk .Viewer) .Unlock none) ≠
      .error .MissingRequiredInput := by
  decide

/-- Claim C5 (amended): an `Unlock` with an absent, empty or
whitespace-only justification on a `Locked` record always fails and
leaves the state unchanged, so the record stays `Locked`; for an `Admin`
— the role `Unlock` admits — the failure is `MissingRequiredInput`,
while other roles fail at the earlier role guard with `Forbidden`. -/
theorem unlock_blank_justification_fails (st : EngineState) (id : Nat) (r : Record)
    (role : Role) (aux : Option String)
    (hfind : findRecord st id = some r) (hst : r.status = .Locked)
    (haux : blankInput aux = true) :
    (∃ e, applyTransition st ⟨id, ⟨role⟩, .Unlock, aux⟩ = .error e) ∧
    (role = .Admin →
      applyTransition st ⟨id, ⟨role⟩, .Unlock, aux⟩ = .error .MissingRequiredInput) ∧
    (role ≠ .Admin →
      applyTransition st ⟨id, ⟨role⟩, .Unlock, aux⟩ = .error .Forbidden) ∧
    step st ⟨id, ⟨role⟩, .Unlock, aux⟩ = st := by
  cases role with
  | Admin =>
    have happ : applyTransition st ⟨id, ⟨.Admin⟩, .Unlock, aux⟩ =
        .error .MissingRequiredInput := by
      unfold applyTransition
      dsimp only
      rw [hfind]
      dsimp only
      rw [if_pos (by rw [hst]; decide), if_pos (by decide),
          if_pos (by simp [requiresInput, haux])]
    exact ⟨⟨_, happ⟩, fun _ => happ, fun h => absurd rfl h, step_of_error happ⟩
  | Viewer =>
    have happ : applyTransition st ⟨id, ⟨.Viewer⟩, .Unlock, aux⟩ = .error .Forbidden := by
      unfold applyTransition
      dsimp only
      rw [hfind]
      dsimp only
      rw [if_pos (by rw [hst]; decide), if_neg (by decide)]
    exact ⟨⟨_, happ⟩, fun h => absurd h (by decide), fun _ => happ, step_of_error happ⟩
  | Editor =>
    have happ : applyTransition st ⟨id, ⟨.Editor⟩, .Unlock, aux⟩ = .error .Forbidden := by
      unfold applyTransition
      dsimp only
      rw [hfind]
      dsimp only
      rw [if_pos (by rw [hst]; decide), if_neg (by decide)]
    exact ⟨⟨_, happ⟩, fun h => absurd h (by decide), fun _ => happ, step_of_error happ⟩
  | Reviewer =>
    have happ : applyTransition st ⟨id, ⟨.Reviewer⟩, .Unlock, aux⟩ = .error .Forbidden := by
      unfold applyTransition
      dsimp only
      rw [hfind]
      dsimp only
      rw [if_pos (by rw [hst]; decide), if_neg (by decide)]
    exact ⟨⟨_, happ⟩, fun h => absurd h (by decide), fun _ => happ, step_of_error happ⟩

/-- Witness for claim C5 (amended): unlocking a `Locked` record with a
whitespace-only (or absent) justification gets `MissingRequiredInput`
for an `Admin` and `Forbidden` for an `Editor` and a `Reviewer`, and the
record stays `Locked`. -/
theorem unlock_blank_justification_fails_witness :
    applyTransition (EngineState.mk [Record.mk 0 .Locked] [])
        (TransitionRequest.mk 0 (Actor.mk .Admin) .Unlock (some "   ")) =
      .error .MissingRequiredInput ∧
    applyTransition (EngineState.mk [Record.mk 0 .Locked] [])
        (TransitionRequest.mk 0 (Actor.mk .Editor) .Unlock (some "   ")) =
      .error .Forbidden ∧
    applyTransition (EngineState.mk [Record.mk 0 .Locked] [])
        (TransitionRequest.mk 0 (Actor.mk .Reviewer) .Unlock none) =
      .error .Forbidden ∧
    step (EngineState.mk [Record.mk 0 .Locked] [])
        (TransitionRequest.mk 0 (Actor.mk .Admin) .Unlock (some "   ")) =
      EngineState.mk [Record.mk 0 .Locked] [] :=
  ⟨(unlock_blank_justification_fails (EngineState.mk [Record.mk 0 .Locked] []) 0
      (Record.mk 0 .Locked) .Admin (some "   ") rfl rfl (by decide)).2.1 rfl,
   (unlock_blank_justification_fails (EngineState.mk [Record.mk 0 .Locked] []) 0
      (Record.mk 0 .Locked) .Editor (some "   ") rfl rfl (by decide)).2.2.1 (by decide),
   (unlock_blank_justification_fails (EngineState.mk [Record.mk 0 .Locked] []) 0
      (Record.mk 0 .Locked) .Reviewer none rfl rfl (by decide)).2.2.1 (by decide),
   (unlock_blank_justification_fails (EngineState.mk [Record.mk 0 .Locked] []) 0
      (Record.mk 0 .Locked) .Admin (some "   ") rfl rfl (by decide)).2.2.2⟩

/-- Claim C6: `Archived` is absorbing — every transition request against
an `Archived` record fails with `InvalidTransition`, and no sequence of
requests ever changes the stored record. -/
theorem archived_absorbing (st : EngineState) (id : Nat) (r : Record)
    (hfind : findRecord st id = some r) (hst : r.status = .Archived) :
    (∀ req : TransitionRequest, req.recordId = id →
      applyTransition st req = .error .InvalidTransition) ∧
    (∀ reqs : List TransitionRequest, findRecord (run st reqs) id = some r) := by
  constructor
  · intro req hreq
    unfold applyTransition
    rw [hreq, hfind]
    dsimp only
    rw [if_neg (by rw [hst]; exact archived_not_source _)]
  · intro reqs
    exact archived_stays_run reqs st id r hfind hst

/-- Witness for claim C6: an `Admin` approving an `Archived` record gets
`InvalidTransition`, and an unlock attempt leaves it `Archived`. -/
theorem archived_absorbing_witness :
    applyTransition (EngineState.mk [Record.mk 0 .Archived] [])
        (TransitionRequest.mk 0 (Actor.mk .Admin) .Approve none) =
      .error .InvalidTransition ∧
    findRecord (run (EngineState.mk [Record.mk 0 .Archived] [])
        [TransitionRequest.mk 0 (Actor.mk .Admin) .Unlock (some "restore")]) 0 =
      some (Record.mk 0 .Archived) :=
  ⟨(archived_absorbing (EngineState.mk [Record.mk 0 .Archived] []) 0
      (Record.mk 0 .Archived) rfl rfl).1 _ rfl,
   (archived_absorbing (EngineState.mk [Record.mk 0 .Archived] []) 0
      (Record.mk 0 .Archived) rfl rfl).2 _⟩

/-- Claim C7: on an `Approved` record with an empty history, an `Admin`
`Lock` followed by an `Admin` `Unlock` with a non-blank justification is
a round trip — both calls succeed, the intermediate status is `Locked`,
the final status is `Approved` again, and the audit log holds exactly
the two corresponding entries in order. -/
theorem lock_unlock_round_trip (st : EngineState) (id : Nat) (r : Record) (j : String)
    (hfind : findRecord st id = some r) (hst : r.status = .Approved)
    (haud : st.audit = []) (hj : blankString j = false) :
    applyTransition st ⟨id, ⟨.Admin⟩, .Lock, none⟩ =
      .ok ({ r with status := .Locked },
           { recordId := id, fromStatus := .Approved, toStatus := .Locked,
             actorRole := .Admin, auxiliaryInput := none, transitionName := .Lock }) ∧
    findRecord (step st ⟨id, ⟨.Admin⟩, .Lock, none⟩) id =
      some { r with status := .Locked } ∧
    applyTransition (step st ⟨id, ⟨.Admin⟩, .Lock, none⟩)
        ⟨id, ⟨.Admin⟩, .Unlock, some j⟩ =
      .ok (r, { recordId := id, fromStatus := .Locked, toStatus := .Approved,
                actorRole := .Admin, auxiliaryInput := some j,
                transitionName := .Unlock }) ∧
    findRecord (step (step st ⟨id, ⟨.Admin⟩, .Lock, none⟩)
        ⟨id, ⟨.Admin⟩, .Unlock, some j⟩) id = some r ∧
    (step (step st ⟨id, ⟨.Admin⟩, .Lock, none⟩)
        ⟨id, ⟨.Admin⟩, .Unlock, some j⟩).audit =
      [{ recordId := id, fromStatus := .Approved, toStatus := .Locked,
         actorRole := .Admin, auxiliaryInput := none, transitionName := .Lock },
       { recordId := id, fromStatus := .Locked, toStatus := .Approved,
         actorRole := .Admin, auxiliaryInput := some j,
         transitionName := .Unlock }] := by
  obtain ⟨rid, rstat⟩ := r
  have hid : rid = id := by simpa using findRecord_id hfind
  subst hid
  have hstat : rstat = Status.Approved := by simpa using hst
  subst hstat
  have h1 : applyTransition st ⟨rid, ⟨.Admin⟩, .Lock, none⟩ =
      .ok (Record.mk rid .Locked,
           AuditEntry.mk rid .Approved .Locked .Admin none .Lock) := by
    unfold applyTransition
    dsimp only
    rw [hfind]
    dsimp only
    rw [if_pos (by decide), if_pos (by decide), if_neg (by decide)]
    rfl
  have hstep1 : step st ⟨rid, ⟨.Admin⟩, .Lock, none⟩ =
      { records := putRecord st.records (Record.mk rid .Locked),
        audit := st.audit ++ [AuditEntry.mk rid .Approved .Locked .Admin none .Lock] } :=
    step_of_ok h1
  have hfind1 : findRecord (step st ⟨rid, ⟨.Admin⟩, .Lock, none⟩) rid =
      some (Record.mk rid .Locked) := by
    rw [hstep1]
    exact find?_putRecord_eq st.records (Record.mk rid .Locked) rid _ hfind rfl
  have h2 : applyTransition (step st ⟨rid, ⟨.Admin⟩, .Lock, none⟩)
      ⟨rid, ⟨.Admin⟩, .Unlock, some j⟩ =
      .ok (Record.mk rid .Approved,
           AuditEntry.mk rid .Locked .Approved .Admin (some j) .Unlock) := by
    unfold applyTransition
    dsimp only
    rw [hfind1]
    dsimp only
    rw [if_pos (by decide), if_pos (by decide),
        if_neg (by simp [requiresInput, blankInput, hj])]
    rfl
  have hstep2 : step (step st ⟨rid, ⟨.Admin⟩, .Lock, none⟩)
      ⟨rid, ⟨.Admin⟩, .Unlock, some j⟩ =
      { records := putRecord (step st ⟨rid, ⟨.Admin⟩, .Lock, none⟩).records
          (Record.mk rid .Approved),
        audit := (step st ⟨rid, ⟨.Admin⟩, .Lock, none⟩).audit ++
          [AuditEntry.mk rid .Locked .Approved .Admin (some j) .Unlock] } :=
    step_of_ok h2
  have hfind2 : findRecord (step (step st ⟨rid, ⟨.Admin⟩, .Lock, none⟩)
      ⟨rid, ⟨.Admin⟩, .Unlock, some j⟩) rid = some (Record.mk rid .Approved) := by
    rw [hstep2]
    exact find?_putRecord_eq _ (Record.mk rid .Approved) rid _ hfind1 rfl
  refine ⟨h1, hfind1, h2, hfind2, ?_⟩
  rw [hstep2, hstep1]
  simp [haud]

/-- Witness for claim C7: the round trip on a concrete `Approved` record
with justification `"audit correction"`. -/
theorem lock_unlock_round_trip_witness :
    applyTransition (EngineState.mk [Record.mk 7 .Approved] [])
        (TransitionRequest.mk 7 (Actor.mk .Admin) .Lock none) =
      .ok (Record.mk 7 .Locked,
           AuditEntry.mk 7 .Approved .Locked .Admin none .Lock) ∧
    findRecord (step (EngineState.mk [Record.mk 7 .Approved] [])
        (TransitionRequest.mk 7 (Actor.mk .Admin) .Lock none)) 7 =
      some (Record.mk 7 .Locked) ∧
    applyTransition (step (EngineState.mk [Record.mk 7 .Approved] [])
        (TransitionRequest.mk 7 (Actor.mk .Admin) .Lock none))
        (TransitionRequest.mk 7 (Actor.mk .Admin) .Unlock (some "audit correction")) =
      .ok (Record.mk 7 .Approved,
           AuditEntry.mk 7 .Locked .Approved .Admin (some "audit correction") .Unlock) ∧
    findRecord (step (step (EngineState.mk [Record.mk 7 .Approved] [])
        (TransitionRequest.mk 7 (Actor.mk .Admin) .Lock none))
        (TransitionRequest.mk 7 (Actor.mk .Admin) .Unlock (some "audit correction"))) 7 =
      some (Record.mk 7 .Approved) ∧
    (step (step (EngineState.mk [Record.mk 7 .Approved] [])
        (TransitionRequest.mk 7 (Actor.mk .Admin) .Lock none))
        (TransitionRequest.mk 7 (Actor.mk .Admin) .Unlock (some "audit correction"))).audit =
      [AuditEntry.mk 7 .Approved .Locked .Admin none .Lock,
       AuditEntry.mk 7 .Locked .Approved .Admin (some "audit correction") .Unlock] :=
  lock_unlock_round_trip (EngineState.mk [Record.mk 7 .Approved] []) 7
    (Record.mk 7 .Approved) "audit correction" rfl rfl rfl (by decide)

/-- Claim C8: `availableTransitions` never offers a transition whose role
set excludes the actor's role or whose "From" set excludes the record's
status; it is a pure computation with no effect on the record store or
the audit log. -/
theorem availableTransitions_sound (r : Record) (a : Actor) (t : TransitionName)
    (h : t ∈ availableTransitions r a) :
    a.role ∈ allowedRoles t ∧ r.status ∈ fromStatuses t := by
  unfold availableTransitions at h
  rw [List.mem_filter] at h
  obtain ⟨-, hcond⟩ := h
  rw [Bool.and_eq_true, decide_eq_true_eq, decide_eq_true_eq] at hcond
  exact ⟨hcond.2, hcond.1⟩

/-- Witness for claim C8: `Lock` is offered to an `Admin` on an
`Approved` record, and indeed its role set admits `Admin` and its "From"
set holds `Approved`. -/
theorem availableTransitions_sound_witness :
    Role.Admin ∈ allowedRoles TransitionName.Lock ∧
    Status.Approved ∈ fromStatuses TransitionName.Lock :=
  availableTransitions_sound (Record.mk 0 .Approved) (Actor.mk .Admin)
    TransitionName.Lock (by decide)

end RecordWorkflow

namespace DemoFrontend

/-- Claim C9: `validateRecordForm` checks only the title — the outcome is
the same for any two forms agreeing on the title; a blank (absent, empty
or whitespace-only) title makes the field error and the summary visible
with no success, and a non-blank title takes the success path with no
error shown. -/
theorem validateRecordForm_title_only (f g : RecordForm) (h : f.title = g.title) :
    validateRecordForm f = validateRecordForm g ∧
    (titleBlank f = true →
      validateRecordForm f =
        { titleErrorVisible := true, summaryVisible := true, success := false }) ∧
    (titleBlank f = false →
      validateRecordForm f =
        { titleErrorVisible := false, summaryVisible := false, success := true }) := by
  refine ⟨?_, ?_, ?_⟩
  · unfold validateRecordForm titleBlank
    rw [h]
  · intro hb
    simp [validateRecordForm, hb]
  · intro hb
    simp [validateRecordForm, hb]

/-- Witness for claim C9: changing the Type select and the description
does not change the outcome, and a non-blank title succeeds. -/
theorem validateRecordForm_title_only_witness :
    validateRecordForm (RecordForm.mk (some "Server outage") (some "Incident") none) =
      validateRecordForm
        (RecordForm.mk (some "Server outage") (some "Request") (some "details")) ∧
    validateRecordForm (RecordForm.mk (some "Server outage") (some "Incident") none) =
      FormOutcome.mk false false true :=
  ⟨(validateRecordForm_title_only
      (RecordForm.mk (some "Server outage") (some "Incident") none)
      (RecordForm.mk (some "Server outage") (some "Request") (some "details")) rfl).1,
   (validateRecordForm_title_only
      (RecordForm.mk (some "Server outage") (some "Incident") none)
      (RecordForm.mk (some "Server outage") (some "Request") (some "details")) rfl).2.2
      (by decide)⟩

/-- Claim C10: after `updateStatusBadge` on an existing badge element
with a status-modifier class (any class other than the base `badge`),
the badge carries exactly the base class plus that single modifier — any
previous modifier is gone — its text is the supplied text, and at most
one non-base class is present. -/
theorem updateStatusBadge_single_modifier (b : Badge) (text className : String)
    (h : className ≠ "badge") :
    (updateStatusBadge b text className).text = text ∧
    (updateStatusBadge b text className).classes = ["badge", className] ∧
    ((updateStatusBadge b text className).classes.filter
        (fun c => !(c == "badge"))).length ≤ 1 := by
  have hcl : classListAdd ["badge"] className = ["badge", className] := by
    unfold classListAdd
    rw [if_neg (by simp [List.contains, h])]
    rfl
  refine ⟨rfl, ?_, ?_⟩
  · show classListAdd ["badge"] className = ["badge", className]
    exact hcl
  · show ((classListAdd ["badge"] className).filter (fun c => !(c == "badge"))).length ≤ 1
    have hb : (className == "badge") = false := by simp [h]
    rw [hcl]
    simp [List.filter, hb]

/-- Witness for claim C10: updating a badge that still carries the
`badge--pending` modifier to `Approved`/`badge--approved` leaves exactly
the base class and the new modifier, with the new text. -/
theorem updateStatusBadge_single_modifier_witness :
    (updateStatusBadge (Badge.mk ["badge", "badge--pending"] "Pending Review")
        "Approved" "badge--approved").text = "Approved" ∧
    (updateStatusBadge (Badge.mk ["badge", "badge--pending"] "Pending Review")
        "Approved" "badge--approved").classes = ["badge", "badge--approved"] ∧
    ((updateStatusBadge (Badge.mk ["badge", "badge--pending"] "Pending Review")
        "Approved" "badge--approved").classes.filter
        (fun c => !(c == "badge"))).length ≤ 1 :=
  updateStatusBadge_single_modifier
    (Badge.mk ["badge", "badge--pending"] "Pending Review")
    "Approved" "badge--approved" (by decide)

end DemoFrontend
